import Mathlib

/-!
Verification of the byte-stream buffer (`src/libsponge/byte_stream.cc`) and
the IPv4 numeric conversion of `src/libsponge/util/address.cc`.

The C++ state of `ByteStream` (members referenced by the `.cc` file:
`cap`, `dataStream`, `writeByte`, `readByte`, `_end_input`) is embedded as a
Lean structure.  The byte buffer (a `BufferList` in C++) is modelled by the
flattened FIFO list of its characters.  `size_t` values are modelled as `Nat`;
the one truncating subtraction, `cap - buffer_size()` in
`remaining_capacity()`, is Nat subtraction, which agrees with the `size_t`
subtraction whenever `buffer_size() ≤ cap` — an inequality proved below for
every state reachable from the constructor.
-/

namespace Sponge

/-- State of a `ByteStream` object.  Field names follow the C++ members used
by `byte_stream.cc`; the buffer holds the flattened contents of the
`BufferList dataStream` in FIFO order. -/
structure ByteStream where
  cap : Nat
  dataStream : List Char
  writeByte : Nat
  readByte : Nat
  end_input_flag : Bool
  deriving Repr, DecidableEq

namespace ByteStream

/-- `ByteStream::ByteStream(const size_t capacity):cap(capacity) {}` — the
constructor stores the capacity; the remaining members start empty/zero/false
(their in-class initializers; the spec: "succeeds with an empty buffer"). -/
def init (capacity : Nat) : ByteStream :=
  { cap := capacity, dataStream := [], writeByte := 0, readByte := 0, end_input_flag := false }

/-- The C++ constructor body has no failure path at all: construction always
succeeds, whatever the capacity.  The `Option` records that the claim under
test speaks of a possible constructor error. -/
def init? (capacity : Nat) : Option ByteStream := some (init capacity)

/-- `size_t ByteStream::buffer_size() const { return dataStream.size(); }` -/
def buffer_size (st : ByteStream) : Nat := st.dataStream.length

/-- `bool ByteStream::buffer_empty() const { return !buffer_size(); }` -/
def buffer_empty (st : ByteStream) : Bool := st.buffer_size == 0

/-- `size_t ByteStream::remaining_capacity() const { return cap-buffer_size(); }` -/
def remaining_capacity (st : ByteStream) : Nat := st.cap - st.buffer_size

/-- `ByteStream::write`: accepts `min(remaining_capacity(), data.size())`
bytes from the front of `data`, appends them to the back of `dataStream`,
adds the count to `writeByte` and returns it. -/
def write (st : ByteStream) (data : List Char) : ByteStream × Nat :=
  let len := min st.remaining_capacity data.length
  ({ st with dataStream := st.dataStream ++ data.take len,
             writeByte := st.writeByte + len }, len)

/-- `ByteStream::peek_output`: the C++ body is
`std::string(dataStream.concatenate().data(), len)` with no bound check (its
own comment: the copy is unsafe and bounds are only checked in `read`).  When
`len` exceeds the buffered length the copy reads past the end of the
concatenated string — undefined behaviour, modelled as `none`. -/
def peek_output (st : ByteStream) (len : Nat) : Option (List Char) :=
  if len ≤ st.dataStream.length then some (st.dataStream.take len) else none

/-- Modelled from the spec: `BufferList::remove_prefix` lives in
`libsponge/util/buffer.cc`, which is not among the visible sources; the spec
says removal of more than is available "is clamped, not an error", so removing
`n` bytes drops at most the whole buffer. -/
def remove_prefix (buf : List Char) (n : Nat) : List Char := buf.drop n

/-- `ByteStream::pop_output`: `dataStream.remove_prefix(len); readByte+=len;`
— note that `readByte` is increased by the full `len`, with no clamping. -/
def pop_output (st : ByteStream) (len : Nat) : ByteStream :=
  { st with dataStream := remove_prefix st.dataStream len,
            readByte := st.readByte + len }

/-- `ByteStream::read`: clamps the length to `min(dataStream.size(), len)`,
peeks that many bytes, pops them and returns them.  The clamped peek is always
in bounds, so the `getD` default is never taken. -/
def read (st : ByteStream) (len : Nat) : ByteStream × List Char :=
  let length := min st.dataStream.length len
  let str := (st.peek_output length).getD []
  (st.pop_output length, str)

/-- `void ByteStream::end_input() { _end_input=true; }` -/
def end_input (st : ByteStream) : ByteStream :=
  { st with end_input_flag := true }

/-- `bool ByteStream::input_ended() const { return _end_input; }` -/
def input_ended (st : ByteStream) : Bool := st.end_input_flag

/-- `bool ByteStream::eof() const { return input_ended()&&buffer_empty(); }` -/
def eof (st : ByteStream) : Bool := st.input_ended && st.buffer_empty

/-- `size_t ByteStream::bytes_written() const { return writeByte; }` -/
def bytes_written (st : ByteStream) : Nat := st.writeByte

/-- `size_t ByteStream::bytes_read() const { return readByte; }` -/
def bytes_read (st : ByteStream) : Nat := st.readByte

end ByteStream

/-- One call on the public interface of `ByteStream`. -/
inductive Op where
  | write (data : List Char)
  | peek (len : Nat)
  | pop (len : Nat)
  | read (len : Nat)
  | endInput
  deriving Repr, DecidableEq

/-- The state after one call.  `peek_output` is a `const` member, so it leaves
the state unchanged; the other calls are the transition functions above. -/
def applyOp (st : ByteStream) : Op → ByteStream
  | .write data => (st.write data).1
  | .peek _ => st
  | .pop len => st.pop_output len
  | .read len => (st.read len).1
  | .endInput => st.end_input

/-- The state after a sequence of calls. -/
def run (st : ByteStream) (ops : List Op) : ByteStream := ops.foldl applyOp st

/-- A call sequence is safe when every `pop_output` asks for at most the
number of bytes buffered at the moment of the call (the discipline `read`
itself follows). -/
def safeOps (st : ByteStream) : List Op → Bool
  | [] => true
  | op :: ops =>
    (match op with
     | .pop len => len ≤ st.dataStream.length
     | _ => true)
    && safeOps (applyOp st op) ops

/-- The two state invariants of the spec: the buffer never exceeds the
capacity, and the counters differ by exactly the buffered length. -/
def Inv (st : ByteStream) : Prop :=
  st.buffer_size ≤ st.cap ∧ (st.bytes_written : Int) - st.bytes_read = st.buffer_size

instance (st : ByteStream) : Decidable (Inv st) := by
  unfold Inv; infer_instance

/-! The IPv4 numeric conversion of `src/libsponge/util/address.cc`.  An
`Address` stores a socket-address family, the stored size, and — for the
IPv4 case — the four bytes of `sin_addr.s_addr` in the network (big-endian)
order that `htobe32` places them in memory. -/

/-- `AF_INET`, the IPv4 address family constant. -/
def AF_INET : Nat := 2

/-- `sizeof(sockaddr_in)` on the target platform. -/
def sizeof_sockaddr_in : Nat := 16

/-- `sizeof(sockaddr_storage)`, the capacity of `Address::Raw::storage`. -/
def sizeof_sockaddr_storage : Nat := 128

/-- `htobe32`: the four bytes of a 32-bit value in big-endian (network)
order, as `htobe32` lays them out in `sin_addr.s_addr`. -/
def htobe32 (x : Nat) : List Nat :=
  [x / 2 ^ 24 % 256, x / 2 ^ 16 % 256, x / 2 ^ 8 % 256, x % 256]

/-- `be32toh`: reassemble a 32-bit value from its big-endian bytes. -/
def be32toh : List Nat → Nat
  | [a, b, c, d] => ((a * 256 + b) * 256 + c) * 256 + d
  | _ => 0

/-- An `Address` object: the stored family, the stored `_size`, and the
`sin_addr` wire bytes (meaningful for the IPv4 family). -/
structure Address where
  family : Nat
  size : Nat
  addr_bytes : List Nat
  deriving Repr, DecidableEq

namespace Address

/-- `Address::Address(const sockaddr *addr, const size_t size)`: throws
`runtime_error` when the proposed size exceeds `sizeof(_address.storage)`,
otherwise copies the raw address. -/
def ofSockaddr (family : Nat) (addrBytes : List Nat) (size : Nat) : Option Address :=
  if size > sizeof_sockaddr_storage then none
  else some { family := family, size := size, addr_bytes := addrBytes }

/-- `Address::from_ipv4_numeric`: builds a `sockaddr_in` with
`sin_family = AF_INET` and `sin_addr.s_addr = htobe32(ip_address)`, then
constructs the `Address` from it with `sizeof(ipv4_addr)`. -/
def from_ipv4_numeric (ip_address : Nat) : Option Address :=
  ofSockaddr AF_INET (htobe32 ip_address) sizeof_sockaddr_in

/-- `Address::ipv4_numeric`: throws unless the stored family is `AF_INET`
and the stored size is `sizeof(sockaddr_in)`; otherwise returns
`be32toh(ipv4_addr.sin_addr.s_addr)`. -/
def ipv4_numeric (a : Address) : Option Nat :=
  if a.family ≠ AF_INET ∨ a.size ≠ sizeof_sockaddr_in then none
  else some (be32toh a.addr_bytes)

end Address

/-! ## Claims -/

/-- Claim C1: for every stream state and every input `data`, `write(data)`
accepts exactly `min(remaining_capacity(), data.length)` bytes from the front
of `data`, appends them in order to the back of the buffer, returns that
count, `bytes_written()` grows by exactly that count, and the rest of the
state (buffer prefix, `bytes_read`, capacity, `input_ended`) is unchanged. -/
theorem write_spec (st : ByteStream) (data : List Char) :
    (st.write data).2 = min st.remaining_capacity data.length ∧
    (st.write data).1.dataStream =
      st.dataStream ++ data.take (min st.remaining_capacity data.length) ∧
    (st.write data).1.bytes_written =
      st.bytes_written + min st.remaining_capacity data.length ∧
    (st.write data).1.bytes_read = st.bytes_read ∧
    (st.write data).1.cap = st.cap ∧
    (st.write data).1.input_ended = st.input_ended := by
  refine ⟨rfl, rfl, rfl, rfl, rfl, rfl⟩

/-- Claim C8 (counterexample): construction with capacity `0` does not fail —
the constructor has no failure path and yields the empty stream. -/
theorem init_zero_succeeds :
    ByteStream.init? 0 =
      some { cap := 0, dataStream := [], writeByte := 0, readByte := 0,
             end_input_flag := false } := rfl

/-- Claim C8 (amended): construction succeeds for every capacity, including
`0`, and yields a stream with an empty buffer, zero counters, and
`input_ended() == false`. -/
theorem init_spec (capacity : Nat) :
    ByteStream.init? capacity = some (ByteStream.init capacity) ∧
    (ByteStream.init capacity).buffer_size = 0 ∧
    (ByteStream.init capacity).bytes_written = 0 ∧
    (ByteStream.init capacity).bytes_read = 0 ∧
    (ByteStream.init capacity).input_ended = false := by
  refine ⟨rfl, rfl, rfl, rfl, rfl⟩

/-- Claim C9: for every 32-bit value `x`, `Address::from_ipv4_numeric(x)`
succeeds and `ipv4_numeric()` on the result returns `x` — the big-endian
wire conversion round-trips exactly. -/
theorem from_ipv4_numeric_roundtrip (x : Nat) (hx : x < 2 ^ 32) :
    (Address.from_ipv4_numeric x).bind Address.ipv4_numeric = some x := by
  simp only [Address.from_ipv4_numeric, Address.ofSockaddr, Address.ipv4_numeric,
    sizeof_sockaddr_in, sizeof_sockaddr_storage, AF_INET, htobe32, be32toh]
  norm_num
  omega

/-- Witness for C9 at the concrete address 10.0.2.15. -/
theorem from_ipv4_numeric_roundtrip_witness :
    (167772687 : Nat) < 2 ^ 32 ∧
      (Address.from_ipv4_numeric 167772687).bind Address.ipv4_numeric =
        some 167772687 :=
  ⟨by norm_num, from_ipv4_numeric_roundtrip 167772687 (by norm_num)⟩

/-- Claim C10: `write(data)` after `end_input()` behaves exactly as before
end of input — it accepts `min(remaining_capacity(), data.length)` bytes,
increments `bytes_written()` accordingly, and the only difference from the
same write without end of input is the `input_ended` flag itself. -/
theorem write_after_end_input (st : ByteStream) (data : List Char) :
    ((st.end_input).write data).2 = min st.remaining_capacity data.length ∧
    ((st.end_input).write data).1 =
      { (st.write data).1 with end_input_flag := true } ∧
    ((st.end_input).write data).1.input_ended = true := by
  refine ⟨rfl, rfl, rfl⟩

/-- Claim C3 (counterexample): with two bytes buffered, `peek_output(5)` does
not return the first `min(5, buffer_size())` bytes — the unchecked
`std::string(ptr, len)` copy reads out of bounds instead of truncating. -/
theorem peek_output_not_truncating :
    (((ByteStream.init 8).write ['a', 'b']).1).peek_output 5 ≠
      some (List.take (min 5 ((((ByteStream.init 8).write ['a', 'b']).1).buffer_size))
        ((((ByteStream.init 8).write ['a', 'b']).1).dataStream)) := by decide

/-- Claim C3 (amended): for `len ≤ buffer_size()`, `peek_output(len)` returns
exactly the first `len` buffered bytes in FIFO order and leaves the state
unchanged; for larger `len` the unchecked copy is out of bounds rather than a
truncation. -/
theorem peek_output_spec (st : ByteStream) (len : Nat) (h : len ≤ st.buffer_size) :
    st.peek_output len = some (st.dataStream.take len) ∧
    applyOp st (Op.peek len) = st := by
  refine ⟨?_, rfl⟩
  simp only [ByteStream.peek_output, ByteStream.buffer_size] at h ⊢
  rw [if_pos h]

/-- Witness for the amended C3 at a concrete state. -/
theorem peek_output_spec_witness :
    1 ≤ (((ByteStream.init 8).write ['a', 'b']).1).buffer_size ∧
    ((((ByteStream.init 8).write ['a', 'b']).1).peek_output 1 =
      some (((((ByteStream.init 8).write ['a', 'b']).1).dataStream).take 1) ∧
     applyOp (((ByteStream.init 8).write ['a', 'b']).1) (Op.peek 1) =
       (((ByteStream.init 8).write ['a', 'b']).1)) :=
  ⟨by decide, peek_output_spec (((ByteStream.init 8).write ['a', 'b']).1) 1 (by decide)⟩

/-- Claim C4 (counterexample): with one byte buffered, `pop_output(5)`
increments `bytes_read()` by the full `5`, not by
`min(5, buffer_size()) = 1`. -/
theorem pop_output_not_clamped :
    ((((ByteStream.init 8).write ['a']).1).pop_output 5).bytes_read ≠
      (((ByteStream.init 8).write ['a']).1).bytes_read +
        min 5 ((((ByteStream.init 8).write ['a']).1).buffer_size) := by decide

/-- Claim C4 (amended): `pop_output(len)` always succeeds; the buffer removal
is clamped (exactly `min(len, buffer_size())` bytes leave the front), but
`bytes_read()` is incremented by the full requested `len`, not by the clamped
count. -/
theorem pop_output_spec (st : ByteStream) (len : Nat) :
    (st.pop_output len).dataStream = st.dataStream.drop len ∧
    (st.pop_output len).buffer_size = st.buffer_size - min len st.buffer_size ∧
    (st.pop_output len).bytes_read = st.bytes_read + len ∧
    (st.pop_output len).bytes_written = st.bytes_written ∧
    (st.pop_output len).cap = st.cap ∧
    (st.pop_output len).input_ended = st.input_ended := by
  refine ⟨rfl, ?_, rfl, rfl, rfl, rfl⟩
  simp only [ByteStream.pop_output, ByteStream.buffer_size, ByteStream.remove_prefix,
    List.length_drop]
  omega

/-- Claim C5 (counterexample): with one byte buffered,
`peek_output(5)` followed by `pop_output(5)` is not equivalent to `read(5)` —
the peek is out of bounds and the pop advances `bytes_read` by 5 where
`read(5)` advances it by 1. -/
theorem peek_pop_ne_read :
    ¬ ((((ByteStream.init 8).write ['a']).1).peek_output 5 =
          some ((((ByteStream.init 8).write ['a']).1).read 5).2 ∧
       (((ByteStream.init 8).write ['a']).1).pop_output 5 =
          ((((ByteStream.init 8).write ['a']).1).read 5).1) := by decide

/-- Claim C5 (amended): for `n ≤ buffer_size()`, `peek_output(n)` followed by
`pop_output(n)` yields the same returned bytes and the same final state as a
single `read(n)` call. -/
theorem peek_pop_eq_read (st : ByteStream) (n : Nat) (h : n ≤ st.buffer_size) :
    st.peek_output n = some (st.read n).2 ∧
    st.pop_output n = (st.read n).1 := by
  simp only [ByteStream.buffer_size] at h
  simp only [ByteStream.read, ByteStream.peek_output, Nat.min_eq_right h, if_pos h,
    Option.getD_some, and_true, true_and]

/-- Witness for the amended C5 at a concrete state. -/
theorem peek_pop_eq_read_witness :
    1 ≤ (((ByteStream.init 8).write ['a', 'b']).1).buffer_size ∧
    ((((ByteStream.init 8).write ['a', 'b']).1).peek_output 1 =
        some ((((ByteStream.init 8).write ['a', 'b']).1).read 1).2 ∧
     (((ByteStream.init 8).write ['a', 'b']).1).pop_output 1 =
        ((((ByteStream.init 8).write ['a', 'b']).1).read 1).1) :=
  ⟨by decide, peek_pop_eq_read (((ByteStream.init 8).write ['a', 'b']).1) 1 (by decide)⟩

theorem run_cons (st : ByteStream) (op : Op) (ops : List Op) :
    Sponge.run st (op :: ops) = Sponge.run (applyOp st op) ops := rfl

theorem input_ended_run (st : ByteStream) (ops : List Op) :
    (Sponge.run st ops).input_ended = true ↔
      st.input_ended = true ∨ Op.endInput ∈ ops := by
  induction ops generalizing st with
  | nil => simp [Sponge.run]
  | cons op ops ih =>
    rw [run_cons, ih]
    cases op <;>
      simp [applyOp, ByteStream.input_ended, ByteStream.end_input, ByteStream.write,
        ByteStream.pop_output, ByteStream.read]

/-- Claim C6 (counterexample): `eof()` is not monotone — after `end_input()`
on a fresh stream it is `true`, and a subsequent `write` makes it `false`
again. -/
theorem eof_reverts :
    (Sponge.run (ByteStream.init 8) [Op.endInput]).eof = true ∧
    (Sponge.run (ByteStream.init 8) [Op.endInput, Op.write ['a']]).eof = false := by
  decide

/-- Claim C6 (amended): in every reachable state, `eof()` is `true` iff
`end_input()` has previously been called and `buffer_size() == 0`; once
`eof()` holds it remains `true` under every subsequent operation other than a
`write` (a write accepted after `end_input()` makes `eof()` false again). -/
theorem eof_spec (cap : Nat) (ops : List Op) (st : ByteStream) (op : Op) :
    ((Sponge.run (ByteStream.init cap) ops).eof = true ↔
      Op.endInput ∈ ops ∧ (Sponge.run (ByteStream.init cap) ops).buffer_size = 0) ∧
    (st.eof = true → (∀ data, op ≠ Op.write data) → (applyOp st op).eof = true) := by
  constructor
  · rw [ByteStream.eof, Bool.and_eq_true, input_ended_run]
    simp [ByteStream.init, ByteStream.input_ended, ByteStream.buffer_empty,
      ByteStream.buffer_size, and_comm]
  · intro h hw
    cases op with
    | write data => exact absurd rfl (hw data)
    | peek len => exact h
    | pop len =>
      simp only [ByteStream.eof, ByteStream.buffer_empty, ByteStream.buffer_size,
        ByteStream.input_ended, Bool.and_eq_true, beq_iff_eq] at h ⊢
      simp only [applyOp, ByteStream.pop_output, ByteStream.remove_prefix,
        List.length_drop]
      exact ⟨h.1, by omega⟩
    | read len =>
      simp only [ByteStream.eof, ByteStream.buffer_empty, ByteStream.buffer_size,
        ByteStream.input_ended, Bool.and_eq_true, beq_iff_eq] at h ⊢
      simp only [applyOp, ByteStream.read, ByteStream.pop_output,
        ByteStream.remove_prefix, List.length_drop]
      exact ⟨h.1, by omega⟩
    | endInput =>
      simp only [ByteStream.eof, ByteStream.buffer_empty, ByteStream.buffer_size,
        ByteStream.input_ended, Bool.and_eq_true, beq_iff_eq] at h ⊢
      exact ⟨rfl, h.2⟩

/-- Witness for the amended C6: the characterization at a concrete run, and
persistence of `eof` across a concrete non-write call. -/
theorem eof_spec_witness :
    ((ByteStream.init 4).end_input.eof = true ∧
      (applyOp (ByteStream.init 4).end_input (Op.pop 0)).eof = true) ∧
    ((Sponge.run (ByteStream.init 4) [Op.endInput]).eof = true ↔
      Op.endInput ∈ [Op.endInput] ∧
        (Sponge.run (ByteStream.init 4) [Op.endInput]).buffer_size = 0) :=
  ⟨⟨by decide,
    (eof_spec 4 [Op.endInput] (ByteStream.init 4).end_input (Op.pop 0)).2
      (by decide) (fun data hd => Op.noConfusion hd)⟩,
   (eof_spec 4 [Op.endInput] (ByteStream.init 4).end_input (Op.pop 0)).1⟩

theorem inv_init (capacity : Nat) : Inv (ByteStream.init capacity) := by
  constructor <;>
    simp [ByteStream.init, ByteStream.buffer_size, ByteStream.bytes_written,
      ByteStream.bytes_read]

theorem inv_applyOp (st : ByteStream) (op : Op)
    (hsafe : ∀ len, op = Op.pop len → len ≤ st.dataStream.length)
    (hInv : Inv st) : Inv (applyOp st op) := by
  obtain ⟨h1, h2⟩ := hInv
  simp only [Inv, ByteStream.buffer_size, ByteStream.bytes_written,
    ByteStream.bytes_read] at h1 h2 ⊢
  cases op with
  | write data =>
    simp only [applyOp, ByteStream.write, ByteStream.remaining_capacity,
      ByteStream.buffer_size, List.length_append, List.length_take]
    constructor <;> [omega; (push_cast; omega)]
  | peek len => exact ⟨h1, h2⟩
  | pop len =>
    have hlen := hsafe len rfl
    simp only [applyOp, ByteStream.pop_output, ByteStream.remove_prefix,
      List.length_drop]
    constructor <;> [omega; (push_cast; omega)]
  | read len =>
    simp only [applyOp, ByteStream.read, ByteStream.pop_output,
      ByteStream.remove_prefix, List.length_drop]
    constructor <;> [omega; (push_cast; omega)]
  | endInput => exact ⟨h1, h2⟩

theorem inv_run (st : ByteStream) (ops : List Op) (hInv : Inv st)
    (hsafe : safeOps st ops = true) : Inv (Sponge.run st ops) := by
  induction ops generalizing st with
  | nil => exact hInv
  | cons op ops ih =>
    rw [run_cons]
    simp only [safeOps, Bool.and_eq_true] at hsafe
    refine ih _ (inv_applyOp st op ?_ hInv) hsafe.2
    intro len hop
    subst hop
    simpa using hsafe.1

/-- Claim C2 (counterexample): the invariant
`bytes_written() - bytes_read() == buffer_size()` is violated by an
over-length `pop_output`: after `write("a"); pop_output(5)` on a fresh
stream, `bytes_written() = 1` but `bytes_read() = 5` with an empty buffer. -/
theorem inv_violated_by_overlength_pop :
    ¬ Inv (Sponge.run (ByteStream.init 8) [Op.write ['a'], Op.pop 5]) := by
  decide

/-- Claim C2 (amended): after every sequence of operations from a freshly
constructed stream in which each `pop_output` requests at most the number of
bytes buffered at the moment of the call, the state satisfies
`buffer_size() ≤ capacity` and
`bytes_written() - bytes_read() == buffer_size()`. -/
theorem inv_of_safe_run (capacity : Nat) (ops : List Op)
    (h : safeOps (ByteStream.init capacity) ops = true) :
    Inv (Sponge.run (ByteStream.init capacity) ops) :=
  inv_run _ _ (inv_init capacity) h

/-- Witness for the amended C2 on a concrete safe call sequence. -/
theorem inv_of_safe_run_witness :
    safeOps (ByteStream.init 4) [Op.write ['a', 'b', 'c'], Op.read 2, Op.pop 1,
      Op.endInput] = true ∧
    Inv (Sponge.run (ByteStream.init 4) [Op.write ['a', 'b', 'c'], Op.read 2,
      Op.pop 1, Op.endInput]) :=
  ⟨by decide,
   inv_of_safe_run 4 [Op.write ['a', 'b', 'c'], Op.read 2, Op.pop 1, Op.endInput]
     (by decide)⟩

/-- Claim C7: for every byte sequence `s` no longer than the capacity,
writing `s` into a fresh stream and reading back `s.length` bytes returns
exactly `s`, in order. -/
theorem write_read_roundtrip (capacity : Nat) (s : List Char)
    (h : s.length ≤ capacity) :
    (((ByteStream.init capacity).write s).1.read s.length).2 = s := by
  have hmin : min capacity s.length = s.length := Nat.min_eq_right h
  simp [ByteStream.init, ByteStream.write, ByteStream.remaining_capacity,
    ByteStream.buffer_size, ByteStream.read, ByteStream.peek_output, hmin,
    List.take_length]

/-- Witness for C7 with capacity 4 and the bytes "abc". -/
theorem write_read_roundtrip_witness :
    (['a', 'b', 'c'] : List Char).length ≤ 4 ∧
      (((ByteStream.init 4).write ['a', 'b', 'c']).1.read
        (['a', 'b', 'c'] : List Char).length).2 = ['a', 'b', 'c'] :=
  ⟨by decide, write_read_roundtrip 4 ['a', 'b', 'c'] (by decide)⟩

end Sponge
